import Mathlib

/-!
# Woflang core interpreter: shallow embedding

A shallow embedding of the Woflang C++ core (`WofValue`, the tokenizer,
the dispatch loop and the built-in operator handlers registered in the
`WoflangInterpreter` constructor), together with proofs settling the
specification claims about it.

Modelling conventions:
* C++ `std::int64_t` payloads are modelled as `Int`; the one place the
  64-bit range matters (`std::stoll` throwing `std::out_of_range`) is
  modelled explicitly by a range check.
* C++ `double` payloads are modelled as exact rationals `ℚ`.  IEEE-754
  rounding, NaN and infinities are abstracted away; none of the claims
  settled here depends on rounding (the concrete arithmetic appearing in
  them is exact in IEEE double as well).
* C++ exceptions thrown by `WoflangInterpreter::error` are modelled by
  the `Res.err` constructor carrying the error message and the stack
  state at throw time (the member `stack` keeps all mutations performed
  before the throw, exactly as in the C++ code where `pop` has already
  removed elements when a later check fails).
* Output to `std::cout` / `std::cerr` is not modelled; the `print` and
  `.s` handlers only read the stack.
* The stack `std::vector<WofValue>` (top at `back()`) is modelled as a
  `List WofValue` with the top at the head.
-/

namespace Woflang

/-- `enum class WofType` from `woflang.hpp`. -/
inductive WofType where
  | Unknown
  | Integer
  | Double
  | String
  | Symbol
deriving DecidableEq, Repr

/-- `struct UnitInfo { std::string name; double scale{1.0}; }`. -/
structure UnitInfo where
  name : String
  scale : ℚ
deriving DecidableEq, Repr

/-- `std::variant<std::monostate, std::int64_t, double, std::string>`
(the `Storage` alternative actually held by a `WofValue`). -/
inductive Storage where
  | mono
  | int (v : Int)
  | dbl (v : ℚ)
  | str (s : String)
deriving DecidableEq, Repr

/-- `class WofValue`: a type tag, the variant payload and an optional unit. -/
structure WofValue where
  type : WofType := .Unknown
  value : Storage := .mono
  unit : Option UnitInfo := none
deriving DecidableEq, Repr

/-- `WofValue::make_int`. -/
def WofValue.make_int (v : Int) : WofValue :=
  { type := .Integer, value := .int v }

/-- `WofValue::make_double`. -/
def WofValue.make_double (v : ℚ) : WofValue :=
  { type := .Double, value := .dbl v }

/-- `WofValue::make_string`. -/
def WofValue.make_string (s : String) : WofValue :=
  { type := .String, value := .str s }

/-- `WofValue::make_symbol`. -/
def WofValue.make_symbol (s : String) : WofValue :=
  { type := .Symbol, value := .str s }

/-- `std::variant::operator==`: same alternative and equal payloads. -/
def storageEq : Storage → Storage → Bool
  | .mono, .mono => true
  | .int a, .int b => a == b
  | .dbl a, .dbl b => decide (a = b)
  | .str a, .str b => a == b
  | _, _ => false

/-- `WofValue::operator==`: tags equal, units both absent or equal by
name and scale, payloads equal by the variant comparison. -/
def wofValueEq (a b : WofValue) : Bool :=
  if a.type ≠ b.type then false
  else
    match a.unit, b.unit with
    | some u₁, some u₂ =>
        if u₁.name ≠ u₂.name ∨ u₁.scale ≠ u₂.scale then false
        else storageEq a.value b.value
    | none, none => storageEq a.value b.value
    | _, _ => false

/-- Tag/payload agreement: the data-model invariant that a value holds
exactly the payload alternative matching its tag (every value built by
the four constructors satisfies it). -/
def WF (v : WofValue) : Bool :=
  match v.type, v.value with
  | .Integer, .int _ => true
  | .Double, .dbl _ => true
  | .String, .str _ => true
  | .Symbol, .str _ => true
  | .Unknown, .mono => true
  | _, _ => false

/-! ## Decimal rendering of integers (`oss << std::int64_t`) -/

/-- Little-endian decimal digits of a natural number, as characters
(`48` is the code point of the digit `0`). -/
def natToRevDigits (n : Nat) : List Char :=
  if n < 10 then [Char.ofNat (48 + n)]
  else Char.ofNat (48 + n % 10) :: natToRevDigits (n / 10)
termination_by n
decreasing_by exact Nat.div_lt_self (by omega) (by omega)

/-- Decimal rendering of a natural number. -/
def natRepr (n : Nat) : String :=
  String.mk (natToRevDigits n).reverse

/-- Decimal rendering of a signed integer, as produced by streaming an
`std::int64_t` into an `std::ostringstream`. -/
def intRepr (v : Int) : String :=
  if v < 0 then String.mk ('-' :: (natToRevDigits v.natAbs).reverse)
  else natRepr v.toNat

/-- Placeholder for the default `std::ostream` formatting of a `double`
(6 significant digits, `%g`-style).  No claim settled in this file
depends on how a `Double` value is rendered, so the exact format is left
unmodelled. -/
def doubleFmt (_ : ℚ) : String := "<double>"

/-- `WofValue::to_string`: render the payload according to the tag, then
append a space and the unit name when a unit is present. -/
def WofValue.to_string (v : WofValue) : String :=
  (match v.type, v.value with
   | .Integer, .int i => intRepr i
   | .Double, .dbl d => doubleFmt d
   | .String, .str s => s
   | .Symbol, .str s => s
   | _, _ => "<unknown>")
  ++ (match v.unit with
      | some u => " " ++ u.name
      | none => "")

/-! ## Interpreter state and stack helpers -/

/-- The interpreter stack (`std::vector<WofValue> stack`, top at `back()`),
top element first. -/
abbrev Stack := List WofValue

/-- Outcome of running a piece of interpreter code: either a normal
return with the resulting stack, or a thrown `std::runtime_error`
carrying its message and the stack state at throw time. -/
inductive Res (α : Type) where
  | ok (a : α) (s : Stack)
  | err (msg : String) (s : Stack)
deriving DecidableEq, Repr

/-- `WoflangInterpreter::pop`: underflow check, then remove and return
the top element. -/
def pop : Stack → Res WofValue
  | [] => .err "stack underflow" []
  | v :: rest => .ok v rest

/-- `WoflangInterpreter::pop_numeric`: pop, then read the payload as a
double (`Double` verbatim, `Integer` converted); a non-numeric tag is an
error raised after the value is already popped. -/
def pop_numeric (s : Stack) : Res ℚ :=
  match pop s with
  | .err m s₁ => .err m s₁
  | .ok v s₁ =>
    match v.type with
    | .Double =>
      match v.value with
      | .dbl d => .ok d s₁
      | _ => .err "bad variant access" s₁
    | .Integer =>
      match v.value with
      | .int i => .ok (i : ℚ) s₁
      | _ => .err "bad variant access" s₁
    | _ => .err "pop_numeric: value is not numeric" s₁

/-- Rounding performed by `std::llround`: to the nearest integer, ties
away from zero.  (Out-of-`int64`-range behaviour of `llround` is
unspecified in C and not modelled.) -/
def llroundQ (q : ℚ) : Int :=
  if 0 ≤ q then ⌊q + 1 / 2⌋ else ⌈q - 1 / 2⌉

/-- `WoflangInterpreter::pop_int`: `Integer` payload verbatim, `Double`
payload rounded by `std::llround`, error otherwise. -/
def pop_int (s : Stack) : Res Int :=
  match pop s with
  | .err m s₁ => .err m s₁
  | .ok v s₁ =>
    match v.type with
    | .Integer =>
      match v.value with
      | .int i => .ok i s₁
      | _ => .err "bad variant access" s₁
    | .Double =>
      match v.value with
      | .dbl d => .ok (llroundQ d) s₁
      | _ => .err "bad variant access" s₁
    | _ => .err "pop_int: value is not numeric" s₁

/-- `WoflangInterpreter::pop_bool`: numbers compare against zero,
strings and symbols are true unless empty, `"0"`, `"false"` or
`"False"`, anything else yields `false`. -/
def pop_bool (s : Stack) : Res Bool :=
  match pop s with
  | .err m s₁ => .err m s₁
  | .ok v s₁ =>
    match v.type with
    | .Integer =>
      match v.value with
      | .int i => .ok (decide (i ≠ 0)) s₁
      | _ => .err "bad variant access" s₁
    | .Double =>
      match v.value with
      | .dbl d => .ok (decide (d ≠ 0)) s₁
      | _ => .err "bad variant access" s₁
    | .String | .Symbol =>
      match v.value with
      | .str t => .ok (!(t == "") && t != "0" && t != "false" && t != "False") s₁
      | _ => .err "bad variant access" s₁
    | .Unknown => .ok false s₁

/-! ## Built-in operator handlers

The lambdas registered in the `WoflangInterpreter` constructor, named
here so theorems can refer to them.  A handler receives the interpreter
(here: its stack) and returns the new stack or a thrown error. -/

/-- An operator handler (`WofOpHandler`); the C++ handler receives the
whole interpreter, but every built-in touches only the stack. -/
abbrev Handler := Stack → Res Unit

/-- The `"+"` handler: pop two numerics, push their sum as a double. -/
def add_builtin : Handler := fun s =>
  match pop_numeric s with
  | .err m s₁ => .err m s₁
  | .ok b s₁ =>
    match pop_numeric s₁ with
    | .err m s₂ => .err m s₂
    | .ok a s₂ => .ok () (WofValue.make_double (a + b) :: s₂)

/-- The `"-"` handler. -/
def sub_builtin : Handler := fun s =>
  match pop_numeric s with
  | .err m s₁ => .err m s₁
  | .ok b s₁ =>
    match pop_numeric s₁ with
    | .err m s₂ => .err m s₂
    | .ok a s₂ => .ok () (WofValue.make_double (a - b) :: s₂)

/-- The `"*"` handler. -/
def mul_builtin : Handler := fun s =>
  match pop_numeric s with
  | .err m s₁ => .err m s₁
  | .ok b s₁ =>
    match pop_numeric s₁ with
    | .err m s₂ => .err m s₂
    | .ok a s₂ => .ok () (WofValue.make_double (a * b) :: s₂)

/-- The `"/"` handler: both operands are popped first, then the divisor
is checked against zero before any result is pushed. -/
def div_builtin : Handler := fun s =>
  match pop_numeric s with
  | .err m s₁ => .err m s₁
  | .ok b s₁ =>
    match pop_numeric s₁ with
    | .err m s₂ => .err m s₂
    | .ok a s₂ =>
      if b = 0 then .err "division by zero" s₂
      else .ok () (WofValue.make_double (a / b) :: s₂)

/-- The `"dup"` handler: depth check, then push a copy of the top. -/
def dup_builtin : Handler := fun s =>
  match s with
  | [] => .err "dup requires at least one value on the stack" []
  | v :: rest => .ok () (v :: v :: rest)

/-- The `"drop"` handler: depth check, then pop. -/
def drop_builtin : Handler := fun s =>
  match s with
  | [] => .err "drop requires at least one value on the stack" []
  | _ :: rest => .ok () rest

/-- The `"swap"` handler: depth check, then exchange the top two. -/
def swap_builtin : Handler := fun s =>
  match s with
  | a :: b :: rest => .ok () (b :: a :: rest)
  | _ => .err "swap requires at least two values on the stack" s

/-- The `"print"` handler: prints the top value (or an empty-stack
notice); output is not modelled, the stack is untouched. -/
def print_builtin : Handler := fun s => .ok () s

/-- The `".s"` handler (`print_stack`): output only, stack untouched. -/
def show_builtin : Handler := fun s => .ok () s

/-! ## Operator registry -/

/-- The operator table `std::unordered_map<std::string, WofOpHandler>`,
modelled as a function from names to optional handlers. -/
abbrev RegMap := String → Option Handler

/-- The empty registry. -/
def emptyOps : RegMap := fun _ => none

/-- `WoflangInterpreter::register_op`: `ops[name] = handler` — insert or
replace, total, no return value. -/
def register_op (ops : RegMap) (name : String) (handler : Handler) : RegMap :=
  fun k => if k = name then some handler else ops k

/-- The registry built by the `WoflangInterpreter` constructor, with the
built-ins registered in source order. -/
def ops0 : RegMap :=
  register_op (register_op (register_op (register_op (register_op
    (register_op (register_op (register_op (register_op emptyOps
      "+" add_builtin)
      "-" sub_builtin)
      "*" mul_builtin)
      "/" div_builtin)
      "dup" dup_builtin)
      "drop" drop_builtin)
      "swap" swap_builtin)
      "print" print_builtin)
      ".s" show_builtin

/-! ## Tokenizer and literal classification -/

/-- `std::isspace` on a byte in the default locale: space, `\t`, `\n`,
`\v`, `\f`, `\r` (code points 32 and 9–13). -/
def isSpaceChar (c : Char) : Bool :=
  c == ' ' || (9 ≤ c.toNat && c.toNat ≤ 13)

/-- `std::isdigit` on a byte in the default locale: code points 48–57. -/
def isDigitChar (c : Char) : Bool :=
  48 ≤ c.toNat && c.toNat ≤ 57

/-- The anonymous-namespace `trim`: strip leading and trailing
whitespace. -/
def trim (s : String) : String :=
  String.mk (((s.data.dropWhile isSpaceChar).reverse.dropWhile isSpaceChar).reverse)

/-- `is_integer_token`: optional leading sign, then one or more decimal
digits and nothing else. -/
def is_integer_token (token : String) : Bool :=
  match token.data with
  | [] => false
  | c :: rest =>
    let ds := if c == '+' || c == '-' then rest else c :: rest
    !ds.isEmpty && ds.all isDigitChar

/-- The digit/dot scan of `is_float_token`, tracking `seen_dot` and
`any_digit`. -/
def float_scan : List Char → Bool → Bool → Bool
  | [], seen_dot, any_digit => any_digit && seen_dot
  | c :: rest, seen_dot, any_digit =>
    if isDigitChar c then float_scan rest seen_dot true
    else if c == '.' then
      if seen_dot then false else float_scan rest true any_digit
    else false

/-- `is_float_token`: optional leading sign, then digits with exactly
one decimal point, at least one digit, nothing else. -/
def is_float_token (token : String) : Bool :=
  match token.data with
  | [] => false
  | c :: rest => float_scan (if c == '+' || c == '-' then rest else c :: rest) false false

/-- The character loop of `simple_tokenize`: `current` is the token
being accumulated, `inq` the `in_quotes` flag.  A quote is appended to
`current` and, when it closes a quoted token, flushes it; whitespace
outside quotes flushes a non-empty `current`; any other character is
appended.  The trailing flush at end of line emits a non-empty
`current` regardless of quote state. -/
def tokenize_go : List Char → List Char → Bool → List (List Char)
  | [], current, _ => if current.isEmpty then [] else [current]
  | c :: rest, current, inq =>
    if c == '"' then
      if inq then (current ++ [c]) :: tokenize_go rest [] false
      else tokenize_go rest (current ++ [c]) true
    else if isSpaceChar c && !inq then
      if current.isEmpty then tokenize_go rest [] inq
      else current :: tokenize_go rest [] inq
    else tokenize_go rest (current ++ [c]) inq

/-- `simple_tokenize`: whitespace tokenizer that keeps quoted strings
together. -/
def simple_tokenize (line : String) : List String :=
  (tokenize_go line.data [] false).map String.mk

/-! ## Literal parsing -/

/-- Big-endian decimal value of a digit-character list (the digit
accumulation performed by `std::stoll`). -/
def digitsVal (cs : List Char) : Nat :=
  cs.foldl (fun a c => 10 * a + (c.toNat - 48)) 0

/-- The optional-leading-sign split shared by `std::stoll` and
`std::stod`: `-1` for a leading minus together with the remaining
characters. -/
def signSplit (cs : List Char) : Int × List Char :=
  match cs with
  | '+' :: rest => (1, rest)
  | '-' :: rest => (-1, rest)
  | rest => (1, rest)

/-- `std::stoll` on a token already known to match the integer grammar:
sign, digit accumulation, and the `std::out_of_range` throw when the
value does not fit in a signed 64-bit integer (`none` models the
throw). -/
def stollOpt (token : String) : Option Int :=
  let sd := signSplit token.data
  let v : Int := sd.1 * digitsVal sd.2
  if v < -(2 ^ 63) ∨ 2 ^ 63 - 1 < v then none else some v

/-- `std::stod` on a token already known to match the float grammar:
sign, integer part, fractional part — modelled as the exact rational
the decimal text denotes (IEEE rounding abstracted). -/
def stodVal (token : String) : ℚ :=
  let sd := signSplit token.data
  let intPart := sd.2.takeWhile (fun c => c ≠ '.')
  let fracPart := (sd.2.dropWhile (fun c => c ≠ '.')).drop 1
  (sd.1 : ℚ) * ((digitsVal intPart : ℚ) + (digitsVal fracPart : ℚ) / 10 ^ fracPart.length)

/-! ## Dispatch and line execution -/

/-- The comment test of `dispatch_token`:
`!token.empty() && token[0] == '#'`. -/
def isCommentTok (token : String) : Bool :=
  match token.data with
  | c :: _ => c == '#'
  | [] => false

/-- The quoted-string test of `dispatch_token`: `token.size() >= 2 &&
token.front() == '"' && token.back() == '"'`. -/
def isQuoteTok (token : String) : Bool :=
  decide (2 ≤ token.data.length) &&
  token.data.headD ' ' == '"' && token.data.getLastD ' ' == '"'

/-- `token.substr(1, token.size() - 2)`: the text between the quotes. -/
def quoteInner (token : String) : String :=
  String.mk ((token.data.drop 1).dropLast)

/-- `WoflangInterpreter::dispatch_token`: a `#`-initial token is
ignored; a quote-wrapped token pushes a `String`; an integer literal
pushes an `Integer`; a float literal pushes a `Double`; a registered
name runs its handler; anything else pushes a `Symbol`. -/
def dispatch_token (ops : RegMap) (token : String) (s : Stack) : Res Unit :=
  if isCommentTok token then .ok () s
  else if isQuoteTok token then .ok () (WofValue.make_string (quoteInner token) :: s)
  else if is_integer_token token then
    match stollOpt token with
    | some v => .ok () (WofValue.make_int v :: s)
    | none => .err "stoll: out of range" s
  else if is_float_token token then .ok () (WofValue.make_double (stodVal token) :: s)
  else
    match ops token with
    | some h => h s
    | none => .ok () (WofValue.make_symbol token :: s)

/-- The dispatch loop of `exec_line`: tokens run left to right; a thrown
error aborts the rest of the line. -/
def run_tokens (ops : RegMap) : List String → Stack → Res Unit
  | [], s => .ok () s
  | t :: ts, s =>
    match dispatch_token ops t s with
    | .ok _ s₁ => run_tokens ops ts s₁
    | .err m s₁ => .err m s₁

/-- `WoflangInterpreter::exec_line`: trim, return on empty, tokenize,
dispatch each token. -/
def exec_line (ops : RegMap) (line : String) (s : Stack) : Res Unit :=
  let trimmed := trim line
  if trimmed = "" then .ok () s
  else run_tokens ops (simple_tokenize trimmed) s

/-- `WofValue::is_numeric`. -/
def WofValue.is_numeric (v : WofValue) : Bool :=
  v.type == .Integer || v.type == .Double

/-- `WofValue::as_numeric`, modelled as `Option`: the numeric payload
(`Integer` converted to double), `none` for the `TypeMismatch` throw. -/
def WofValue.as_numeric (v : WofValue) : Option ℚ :=
  match v.type, v.value with
  | .Integer, .int i => some (i : ℚ)
  | .Double, .dbl d => some d
  | _, _ => none

/-- A sample plugin-style handler pushing `Integer 1` (used to exercise
registry overwrite). -/
def c6_handler_old : Handler := fun s => .ok () (WofValue.make_int 1 :: s)

/-- A sample plugin-style handler pushing `Integer 2` (used to exercise
registry overwrite). -/
def c6_handler_new : Handler := fun s => .ok () (WofValue.make_int 2 :: s)

/-! ## Helper lemmas: decimal digits and rendering -/

/-- `Char.toNat` after `Char.ofNat` on a digit code point. -/
lemma toNat_ofNat_digit (d : Nat) (h : d < 10) : (Char.ofNat (48 + d)).toNat = 48 + d := by
  have hv : (48 + d).isValidChar := Or.inl (by omega)
  simp [Char.ofNat, hv, Char.ofNatAux, Char.toNat, UInt32.toNat, BitVec.toNat_ofNatLt]

/-- The characters produced by `natToRevDigits` are decimal digits. -/
lemma isDigitChar_ofNat_digit (d : Nat) (h : d < 10) :
    isDigitChar (Char.ofNat (48 + d)) = true := by
  simp [isDigitChar, toNat_ofNat_digit d h]; omega

lemma natToRevDigits_ne_nil (n : Nat) : natToRevDigits n ≠ [] := by
  rw [natToRevDigits]
  split <;> simp

lemma natToRevDigits_all_digits (n : Nat) : (natToRevDigits n).all isDigitChar = true := by
  induction n using Nat.strong_induction_on with
  | _ n ih =>
    rw [natToRevDigits]
    split
    · simp [isDigitChar_ofNat_digit n (by omega)]
    · rename_i h
      have hd : n % 10 < 10 := Nat.mod_lt _ (by omega)
      simp only [List.all_cons, Bool.and_eq_true]
      exact ⟨isDigitChar_ofNat_digit _ hd, ih (n / 10) (Nat.div_lt_self (by omega) (by omega))⟩

lemma digitsVal_append_single (xs : List Char) (c : Char) :
    digitsVal (xs ++ [c]) = 10 * digitsVal xs + (c.toNat - 48) := by
  simp [digitsVal, List.foldl_append]

/-- Digit accumulation inverts the decimal rendering. -/
lemma digitsVal_natToRevDigits_reverse (n : Nat) :
    digitsVal (natToRevDigits n).reverse = n := by
  induction n using Nat.strong_induction_on with
  | _ n ih =>
    rw [natToRevDigits]
    split
    · rename_i h
      simp [digitsVal, toNat_ofNat_digit n (by omega)]
    · rename_i h
      rw [List.reverse_cons, digitsVal_append_single,
        ih (n / 10) (Nat.div_lt_self (by omega) (by omega)),
        toNat_ofNat_digit (n % 10) (Nat.mod_lt _ (by omega))]
      omega

lemma digit_not_plus {c : Char} (h : isDigitChar c = true) : c ≠ '+' := by
  intro hc; subst hc; exact absurd h (by decide)

lemma digit_not_minus {c : Char} (h : isDigitChar c = true) : c ≠ '-' := by
  intro hc; subst hc; exact absurd h (by decide)

lemma digit_not_hash {c : Char} (h : isDigitChar c = true) : c ≠ '#' := by
  intro hc; subst hc; exact absurd h (by decide)

lemma digit_not_quote {c : Char} (h : isDigitChar c = true) : c ≠ '"' := by
  intro hc; subst hc; exact absurd h (by decide)

lemma signSplit_not_sign {c : Char} {rest : List Char} (h1 : c ≠ '+') (h2 : c ≠ '-') :
    signSplit (c :: rest) = (1, c :: rest) := by
  unfold signSplit
  split <;> simp_all

/-- The decimal rendering of a natural number: first character and
digit facts, and the value its digits denote. -/
lemma natRepr_shape (n : Nat) :
    ∃ c rest, (natRepr n).data = c :: rest ∧ isDigitChar c = true ∧
      (c :: rest).all isDigitChar = true ∧ digitsVal (c :: rest) = n := by
  have hne : (natToRevDigits n).reverse ≠ [] := by
    simp [List.reverse_eq_nil_iff]; exact natToRevDigits_ne_nil n
  obtain ⟨c, rest, hcr⟩ := List.exists_cons_of_ne_nil hne
  have hall : ((natToRevDigits n).reverse).all isDigitChar = true := by
    rw [List.all_reverse]; exact natToRevDigits_all_digits n
  refine ⟨c, rest, ?_, ?_, ?_, ?_⟩
  · simp [natRepr, hcr]
  · rw [hcr] at hall; simp [List.all_cons] at hall; exact hall.1
  · rw [← hcr]; exact hall
  · rw [← hcr]; exact digitsVal_natToRevDigits_reverse n

/-! ## Helper lemmas: integer tokens built from `intRepr` -/

lemma intRepr_data (v : Int) :
    (0 ≤ v ∧ (intRepr v).data = (natRepr v.toNat).data) ∨
    (v < 0 ∧ (intRepr v).data = '-' :: (natRepr v.natAbs).data) := by
  by_cases h : v < 0
  · right
    refine ⟨h, ?_⟩
    simp [intRepr, h, natRepr]
  · left
    refine ⟨by omega, ?_⟩
    simp [intRepr, h, natRepr]

/-- A canonically rendered integer passes the integer-literal test. -/
lemma is_integer_token_intRepr (v : Int) : is_integer_token (intRepr v) = true := by
  rcases intRepr_data v with ⟨hv, hdata⟩ | ⟨hv, hdata⟩
  · obtain ⟨c, rest, hcr, hdig, hall, hval⟩ := natRepr_shape v.toNat
    rw [is_integer_token, hdata, hcr]
    have h1 : (c == '+') = false := by simp [digit_not_plus hdig]
    have h2 : (c == '-') = false := by simp [digit_not_minus hdig]
    simp [h1, h2, List.all_cons]
    simpa [List.all_cons] using hall
  · obtain ⟨c, rest, hcr, hdig, hall, hval⟩ := natRepr_shape v.natAbs
    rw [is_integer_token, hdata, hcr]
    simp [List.all_cons]
    simpa [List.all_cons] using hall

/-- Parsing inverts the canonical rendering (within the `int64` range). -/
lemma stollOpt_intRepr (v : Int) (hlo : -(2 ^ 63) ≤ v) (hhi : v ≤ 2 ^ 63 - 1) :
    stollOpt (intRepr v) = some v := by
  rcases intRepr_data v with ⟨hv, hdata⟩ | ⟨hv, hdata⟩
  · obtain ⟨c, rest, hcr, hdig, hall, hval⟩ := natRepr_shape v.toNat
    rw [stollOpt, hdata, hcr, signSplit_not_sign (digit_not_plus hdig) (digit_not_minus hdig)]
    simp only [hval]
    have hvv : (1 : Int) * (v.toNat : Int) = v := by omega
    rw [hvv, if_neg (by omega)]
  · obtain ⟨c, rest, hcr, hdig, hall, hval⟩ := natRepr_shape v.natAbs
    rw [stollOpt, hdata, hcr]
    show (if (-1 : Int) * (digitsVal (c :: rest) : Int) < -(2 ^ 63) ∨
        2 ^ 63 - 1 < (-1 : Int) * (digitsVal (c :: rest) : Int) then none
      else some ((-1 : Int) * (digitsVal (c :: rest) : Int))) = some v
    simp only [hval]
    have hvv : (-1 : Int) * (v.natAbs : Int) = v := by omega
    rw [hvv, if_neg (by omega)]

lemma isCommentTok_intRepr (v : Int) : isCommentTok (intRepr v) = false := by
  rcases intRepr_data v with ⟨hv, hdata⟩ | ⟨hv, hdata⟩
  · obtain ⟨c, rest, hcr, hdig, _, _⟩ := natRepr_shape v.toNat
    rw [isCommentTok, hdata, hcr]
    simp [digit_not_hash hdig]
  · rw [isCommentTok, hdata]
    simp

lemma isQuoteTok_intRepr (v : Int) : isQuoteTok (intRepr v) = false := by
  rcases intRepr_data v with ⟨hv, hdata⟩ | ⟨hv, hdata⟩
  · obtain ⟨c, rest, hcr, hdig, _, _⟩ := natRepr_shape v.toNat
    rw [isQuoteTok, hdata, hcr]
    simp [digit_not_quote hdig]
  · rw [isQuoteTok, hdata]
    simp

/-! ## Claim C5: integer-literal round-trip -/

/-- C5 (amended): dispatching a token of the integer-literal grammar
pushes an `Integer` whose payload is the parsed value, and the value's
textual rendering is its canonical decimal form; hence every canonical
integer token — no leading `+`, no redundant leading zeros, no `-0`,
i.e. every token of the form `intRepr v` for an `int64` value `v` —
round-trips: pushing it and converting back to text yields the same
digits, sign included, no added decimal point.  (Non-canonical tokens
such as `"+5"` parse but render back differently; see the
counterexample.) -/
theorem C5_integer_literal_roundtrip (ops : RegMap) (s : Stack) (v : Int)
    (hlo : -(2 ^ 63) ≤ v) (hhi : v ≤ 2 ^ 63 - 1) :
    is_integer_token (intRepr v) = true ∧
    dispatch_token ops (intRepr v) s = .ok () (WofValue.make_int v :: s) ∧
    (WofValue.make_int v).to_string = intRepr v := by
  refine ⟨is_integer_token_intRepr v, ?_, ?_⟩
  · rw [dispatch_token]
    simp [isCommentTok_intRepr, isQuoteTok_intRepr, is_integer_token_intRepr,
      stollOpt_intRepr v hlo hhi]
  · simp [WofValue.to_string, WofValue.make_int]

/-- C5 counterexample: the token `"+5"` matches the integer-literal
grammar and dispatch pushes `Integer 5`, but the pushed value renders
as `"5"`, not as the original token `"+5"` — the claimed round-trip
(sign included) fails. -/
theorem C5_counterexample :
    is_integer_token "+5" = true ∧
    dispatch_token ops0 "+5" [] = .ok () [WofValue.make_int 5] ∧
    (WofValue.make_int 5).to_string = "5" ∧ ("5" : String) ≠ "+5" := by
  refine ⟨by decide, by rfl, ?_, by decide⟩
  simp [WofValue.to_string, WofValue.make_int, intRepr, natRepr, natToRevDigits]

/-- C5 witness: the amended theorem applied to the canonical token
`"-17"` on the empty stack. -/
theorem C5_witness :
    (-(2 ^ 63) ≤ (-17 : Int)) ∧ ((-17 : Int) ≤ 2 ^ 63 - 1) ∧
    (is_integer_token (intRepr (-17)) = true ∧
     dispatch_token ops0 (intRepr (-17)) [] = .ok () [WofValue.make_int (-17)] ∧
     (WofValue.make_int (-17)).to_string = intRepr (-17)) :=
  ⟨by norm_num, by norm_num,
   C5_integer_literal_roundtrip ops0 [] (-17) (by norm_num) (by norm_num)⟩

/-! ## Helper lemmas: tokenizer -/

lemma tokenize_go_quote_close (rest current) :
    tokenize_go ('"' :: rest) current true = (current ++ ['"']) :: tokenize_go rest [] false := rfl

lemma tokenize_go_quote_open (rest current) :
    tokenize_go ('"' :: rest) current false = tokenize_go rest (current ++ ['"']) true := rfl

lemma tokenize_go_space (c : Char) (rest current) (hc : (c == '"') = false)
    (hsp : isSpaceChar c = true) :
    tokenize_go (c :: rest) current false =
      if current.isEmpty then tokenize_go rest [] false
      else current :: tokenize_go rest [] false := by
  rw [tokenize_go]
  simp [hc, hsp]

lemma tokenize_go_other (c : Char) (rest current inq) (hc : (c == '"') = false)
    (hsp : (isSpaceChar c && !inq) = false) :
    tokenize_go (c :: rest) current inq = tokenize_go rest (current ++ [c]) inq := by
  rw [tokenize_go]
  simp [hc, hsp]

/-- A line left in quote mode at its end still flushes the partial
token: the output ends with a token containing the unmatched quote. -/
lemma tokenize_go_unterminated :
    ∀ (cs current : List Char) (inq : Bool),
      (inq = true → '"' ∈ current) →
      (cs.count '"' + (if inq then 1 else 0)) % 2 = 1 →
      ∃ ts t, tokenize_go cs current inq = ts ++ [t] ∧ '"' ∈ t := by
  intro cs
  induction cs with
  | nil =>
    intro current inq hcur hodd
    cases inq
    · simp at hodd
    · have hq : '"' ∈ current := hcur rfl
      have hne : current.isEmpty = false := by
        cases current
        · simp at hq
        · simp
      refine ⟨[], current, ?_, hq⟩
      simp [tokenize_go, hne]
  | cons c rest ih =>
    intro current inq hcur hodd
    by_cases hc : c = '"'
    · subst hc
      have hcount : ('"' :: rest).count '"' = rest.count '"' + 1 := by
        simp [List.count_cons]
      cases inq
      · rw [tokenize_go_quote_open]
        apply ih
        · intro _
          exact List.mem_append_right _ (by simp)
        · rw [hcount] at hodd
          simpa using hodd
      · rw [tokenize_go_quote_close]
        obtain ⟨ts, t, heq, hq⟩ := ih [] false (by simp) (by
          rw [hcount] at hodd
          simp only [if_pos] at hodd ⊢
          simp at hodd ⊢
          omega)
        exact ⟨(current ++ ['"']) :: ts, t, by rw [heq, List.cons_append], hq⟩
    · have hcb : (c == '"') = false := by simp [hc]
      have hcount : (c :: rest).count '"' = rest.count '"' := by
        simp [List.count_cons, hc]
      rw [hcount] at hodd
      by_cases hsp : (isSpaceChar c && !inq) = true
      · have hinq : inq = false := by
          cases inq
          · rfl
          · simp at hsp
        subst hinq
        rw [tokenize_go_space c rest current hcb (by simpa using hsp)]
        obtain ⟨ts, t, heq, hq⟩ := ih [] false (by simp) (by simpa using hodd)
        by_cases hce : current.isEmpty = true
        · rw [if_pos hce, heq]
          exact ⟨ts, t, rfl, hq⟩
        · rw [if_neg hce, heq]
          exact ⟨current :: ts, t, rfl, hq⟩
      · rw [tokenize_go_other c rest current inq hcb (by simpa using hsp)]
        apply ih
        · intro hq
          exact List.mem_append_left _ (hcur hq)
        · exact hodd

/-! ## Shared helper lemmas for the claim theorems -/

/-- Popping a numeric value: `pop_numeric` returns the payload read as
a double and the remaining stack. -/
lemma pop_numeric_cons_of_as_numeric {v : WofValue} {q : ℚ} {s : Stack}
    (h : v.as_numeric = some q) : pop_numeric (v :: s) = .ok q s := by
  obtain ⟨t, val, u⟩ := v
  cases t <;> cases val <;> simp_all [WofValue.as_numeric, pop_numeric, pop]

/-- `WofValue::operator==` is reflexive (in this model; the C++ source
inherits `NaN != NaN` from IEEE doubles, which the rational model does
not exhibit). -/
lemma wofValueEq_refl (v : WofValue) : wofValueEq v v = true := by
  obtain ⟨t, val, u⟩ := v
  cases u <;> cases val <;> simp [wofValueEq, storageEq]

/-! ## Claim C1: comment tokens -/

/-- Claim C1 is violated by the code: `dispatch_token` ignores only the
tokens that themselves begin with `#`, so on the line `"1 # 2"` the
token `"2"` after the comment marker still reaches evaluation and is
pushed — the final stack is `[2, 1]` (top first), not `[1]` as the
claim (and the comment in `dispatch_token` itself, "ignore everything
after '#'") requires. -/
theorem C1_comment_tokens_still_evaluated :
    exec_line ops0 "1 # 2" [] = .ok () [WofValue.make_int 2, WofValue.make_int 1] ∧
    ([WofValue.make_int 2, WofValue.make_int 1] : Stack) ≠ [WofValue.make_int 1] :=
  ⟨rfl, by decide⟩

/-! ## Claim C2: unterminated quotes -/

/-- Claim C2 counterexample: on the line `"ab` (an unterminated quote)
the partial token is NOT dropped — the trailing flush of
`simple_tokenize` emits it, so the token sequence is `["ab]` and the
partial token appears in it. -/
theorem C2_counterexample :
    simple_tokenize "\"ab" = ["\"ab"] ∧ ("\"ab" : String) ∈ simple_tokenize "\"ab" :=
  ⟨rfl, by decide⟩

/-- Claim C2 (amended): for every line containing an unterminated
double quote (odd number of `"` characters), the partial token
accumulated after the unmatched opening quote IS flushed at end of
line: the produced token sequence is non-empty and its final token
contains the unmatched quote character. -/
theorem C2_unterminated_quote_flushed (line : String)
    (h : line.data.count '"' % 2 = 1) :
    simple_tokenize line ≠ [] ∧ '"' ∈ ((simple_tokenize line).getLastD "").data := by
  obtain ⟨ts, t, heq, hq⟩ := tokenize_go_unterminated line.data [] false (by simp) (by simpa using h)
  constructor
  · simp [simple_tokenize, heq]
  · rw [simple_tokenize, heq, List.map_append]
    simp only [List.map_cons, List.map_nil, List.getLastD_concat]
    exact hq

/-- Claim C2 witness: the amended theorem applied to the line `"ab`. -/
theorem C2_witness :
    ("\"ab" : String).data.count '"' % 2 = 1 ∧
    (simple_tokenize "\"ab" ≠ [] ∧ '"' ∈ ((simple_tokenize "\"ab").getLastD "").data) :=
  ⟨by decide, C2_unterminated_quote_flushed "\"ab" (by decide)⟩

/-! ## Claim C3: core arithmetic always yields a float -/

/-- Claim C3: for every pair of numeric operands on the stack (any mix
of `Integer` and `Double` tags), each core arithmetic operator pushes a
`Double`-tagged result (for `/` provided the divisor is non-zero, the
case settled by C4); in particular executing `"5 3 +"` on the empty
stack leaves exactly the floating-point value 8. -/
theorem C3_arith_always_float (v₀ v₁ : WofValue) (rest : Stack) (a b : ℚ)
    (h₀ : v₀.as_numeric = some b) (h₁ : v₁.as_numeric = some a) :
    dispatch_token ops0 "+" (v₀ :: v₁ :: rest) =
      .ok () (WofValue.make_double (a + b) :: rest) ∧
    dispatch_token ops0 "-" (v₀ :: v₁ :: rest) =
      .ok () (WofValue.make_double (a - b) :: rest) ∧
    dispatch_token ops0 "*" (v₀ :: v₁ :: rest) =
      .ok () (WofValue.make_double (a * b) :: rest) ∧
    (b ≠ 0 → dispatch_token ops0 "/" (v₀ :: v₁ :: rest) =
      .ok () (WofValue.make_double (a / b) :: rest)) ∧
    exec_line ops0 "5 3 +" [] = .ok () [WofValue.make_double 8] := by
  refine ⟨?_, ?_, ?_, ?_, ?_⟩
  · have hd : dispatch_token ops0 "+" (v₀ :: v₁ :: rest) = add_builtin (v₀ :: v₁ :: rest) := rfl
    rw [hd]
    simp only [add_builtin, pop_numeric_cons_of_as_numeric h₀, pop_numeric_cons_of_as_numeric h₁]
  · have hd : dispatch_token ops0 "-" (v₀ :: v₁ :: rest) = sub_builtin (v₀ :: v₁ :: rest) := rfl
    rw [hd]
    simp only [sub_builtin, pop_numeric_cons_of_as_numeric h₀, pop_numeric_cons_of_as_numeric h₁]
  · have hd : dispatch_token ops0 "*" (v₀ :: v₁ :: rest) = mul_builtin (v₀ :: v₁ :: rest) := rfl
    rw [hd]
    simp only [mul_builtin, pop_numeric_cons_of_as_numeric h₀, pop_numeric_cons_of_as_numeric h₁]
  · intro hb
    have hd : dispatch_token ops0 "/" (v₀ :: v₁ :: rest) = div_builtin (v₀ :: v₁ :: rest) := rfl
    rw [hd]
    simp only [div_builtin, pop_numeric_cons_of_as_numeric h₀, pop_numeric_cons_of_as_numeric h₁]
    rw [if_neg hb]
  · have h : exec_line ops0 "5 3 +" [] =
        .ok () [WofValue.make_double (((5 : ℤ) : ℚ) + ((3 : ℤ) : ℚ))] := rfl
    rw [h]
    norm_num

/-- Claim C3 witness: the theorem applied to two `Integer` operands
5 and 3; the `+` handler pushes the `Double` 8. -/
theorem C3_witness :
    (WofValue.make_int 3).as_numeric = some 3 ∧
    (WofValue.make_int 5).as_numeric = some 5 ∧
    dispatch_token ops0 "+" [WofValue.make_int 3, WofValue.make_int 5] =
      .ok () [WofValue.make_double (5 + 3)] := by
  refine ⟨by simp [WofValue.as_numeric, WofValue.make_int],
    by simp [WofValue.as_numeric, WofValue.make_int], ?_⟩
  exact (C3_arith_always_float (WofValue.make_int 3) (WofValue.make_int 5) [] 5 3
    (by simp [WofValue.as_numeric, WofValue.make_int])
    (by simp [WofValue.as_numeric, WofValue.make_int])).1

/-! ## Claim C4: division by zero -/

/-- Claim C4 counterexample: on the one-element stack `[0]` — whose top
value is numeric and equals zero — invoking `/` raises the
`StackUnderflow` error (second `pop` fails), not `DivisionByZero`, so
the claim as stated (quantified over every stack with a numeric zero on
top) is false. -/
theorem C4_counterexample :
    (WofValue.make_int 0).as_numeric = some 0 ∧
    dispatch_token ops0 "/" [WofValue.make_int 0] = .err "stack underflow" [] ∧
    ("stack underflow" : String) ≠ "division by zero" := by
  refine ⟨?_, rfl, by decide⟩
  simp [WofValue.as_numeric, WofValue.make_int]

/-- Claim C4 (amended): for every stack holding at least two values
whose top two are numeric with the top (the divisor) equal to zero,
invoking `/` raises `DivisionByZero` and pushes no quotient — both
operands are consumed and the stack after the error is exactly the
remainder below them. -/
theorem C4_division_by_zero (v₀ v₁ : WofValue) (rest : Stack) (a : ℚ)
    (h₀ : v₀.as_numeric = some 0) (h₁ : v₁.as_numeric = some a) :
    dispatch_token ops0 "/" (v₀ :: v₁ :: rest) = .err "division by zero" rest := by
  have hd : dispatch_token ops0 "/" (v₀ :: v₁ :: rest) = div_builtin (v₀ :: v₁ :: rest) := rfl
  rw [hd]
  simp only [div_builtin, pop_numeric_cons_of_as_numeric h₀,
    pop_numeric_cons_of_as_numeric h₁]
  simp

/-- Claim C4 witness: the amended theorem applied to the stack `[0, 5]`
(top first). -/
theorem C4_witness :
    (WofValue.make_int 0).as_numeric = some 0 ∧
    dispatch_token ops0 "/" [WofValue.make_int 0, WofValue.make_int 5] =
      .err "division by zero" [] := by
  refine ⟨by simp [WofValue.as_numeric, WofValue.make_int], ?_⟩
  exact C4_division_by_zero (WofValue.make_int 0) (WofValue.make_int 5) [] 5
    (by simp [WofValue.as_numeric, WofValue.make_int])
    (by simp [WofValue.as_numeric, WofValue.make_int])

/-! ## Claim C6: registry overwrite -/

/-- Claim C6: registering a handler under a name already present
silently replaces the earlier one (`register_op` is total and returns
the updated registry), and dispatching that name afterwards runs the
newest handler. -/
theorem C6_register_last_write_wins (ops : RegMap) (name : String) (h₁ h₂ : Handler) (s : Stack)
    (hc : isCommentTok name = false) (hq : isQuoteTok name = false)
    (hi : is_integer_token name = false) (hf : is_float_token name = false) :
    register_op (register_op ops name h₁) name h₂ name = some h₂ ∧
    dispatch_token (register_op (register_op ops name h₁) name h₂) name s = h₂ s := by
  have hl : register_op (register_op ops name h₁) name h₂ name = some h₂ := by
    simp [register_op]
  refine ⟨hl, ?_⟩
  simp [dispatch_token, hc, hq, hi, hf, hl]

/-- Claim C6 witness: registering two handlers under `"myop"` over the
built-in registry; dispatch runs the newest. -/
theorem C6_witness :
    isCommentTok "myop" = false ∧ isQuoteTok "myop" = false ∧
    is_integer_token "myop" = false ∧ is_float_token "myop" = false ∧
    register_op (register_op ops0 "myop" c6_handler_old) "myop" c6_handler_new "myop" =
      some c6_handler_new ∧
    dispatch_token (register_op (register_op ops0 "myop" c6_handler_old) "myop" c6_handler_new)
      "myop" [] = c6_handler_new [] := by
  have h := C6_register_last_write_wins ops0 "myop" c6_handler_old c6_handler_new []
    (by decide) (by decide) (by decide) (by decide)
  exact ⟨by decide, by decide, by decide, by decide, h.1, h.2⟩

/-! ## Claim C7: unknown tokens become symbols -/

/-- Claim C7: a token that is not a comment, not a quoted string, not an
integer or float literal and not a registered operator name pushes
exactly one new `Symbol` value carrying the literal token text, leaving
the rest of the stack unchanged. -/
theorem C7_unknown_token_symbol (ops : RegMap) (token : String) (s : Stack)
    (hc : isCommentTok token = false) (hq : isQuoteTok token = false)
    (hi : is_integer_token token = false) (hf : is_float_token token = false)
    (hr : ops token = none) :
    dispatch_token ops token s = .ok () (WofValue.make_symbol token :: s) := by
  simp [dispatch_token, hc, hq, hi, hf, hr]

/-- Claim C7 witness: the theorem applied to the unknown token `"foo"`
over the built-in registry and the empty stack. -/
theorem C7_witness :
    isCommentTok "foo" = false ∧ isQuoteTok "foo" = false ∧
    is_integer_token "foo" = false ∧ is_float_token "foo" = false ∧
    ops0 "foo" = none ∧
    dispatch_token ops0 "foo" [] = .ok () [WofValue.make_symbol "foo"] :=
  ⟨by decide, by decide, by decide, by decide, rfl,
   C7_unknown_token_symbol ops0 "foo" [] (by decide) (by decide) (by decide) (by decide) rfl⟩

/-! ## Claim C8: dup then drop -/

/-- Claim C8: on every non-empty stack, executing `dup` followed by
`drop` restores the stack exactly, so the depth is unchanged and the
resulting top value is (literally, hence structurally by
`WofValue::operator==`) equal to the top value before `dup`. -/
theorem C8_dup_drop (v : WofValue) (rest : Stack) :
    exec_line ops0 "dup drop" (v :: rest) = .ok () (v :: rest) ∧
    wofValueEq v v = true := by
  refine ⟨?_, wofValueEq_refl v⟩
  show run_tokens ops0 (simple_tokenize (trim "dup drop")) (v :: rest) = .ok () (v :: rest)
  rfl

/-! ## Claim C9: pop_bool never raises on a non-empty stack -/

/-- Claim C9: on every non-empty stack whose top value satisfies the
tag/payload invariant, `pop_bool` returns normally whatever the tag:
`Integer` and `Double` payloads compare against zero, `String` and
`Symbol` text is true unless empty, `"0"`, `"false"` or `"False"`, and
the `Unknown` tag yields `false`. -/
theorem C9_pop_bool_total (v : WofValue) (rest : Stack) (h : WF v = true) :
    (∃ b, pop_bool (v :: rest) = .ok b rest) ∧
    (∀ i : Int, v = WofValue.make_int i →
      pop_bool (v :: rest) = .ok (decide (i ≠ 0)) rest) ∧
    (∀ d : ℚ, v = WofValue.make_double d →
      pop_bool (v :: rest) = .ok (decide (d ≠ 0)) rest) ∧
    (∀ t : String, v = WofValue.make_string t →
      pop_bool (v :: rest) = .ok (!(t == "") && t != "0" && t != "false" && t != "False") rest) ∧
    (∀ t : String, v = WofValue.make_symbol t →
      pop_bool (v :: rest) = .ok (!(t == "") && t != "0" && t != "false" && t != "False") rest) ∧
    (v.type = .Unknown → pop_bool (v :: rest) = .ok false rest) := by
  refine ⟨?_, ?_, ?_, ?_, ?_, ?_⟩
  · obtain ⟨t, val, u⟩ := v
    cases t <;> cases val <;> first
      | exact ⟨_, rfl⟩
      | simp_all [WF]
  · intro i heq; subst heq; simp [pop_bool, pop, WofValue.make_int]
  · intro d heq; subst heq; simp [pop_bool, pop, WofValue.make_double]
  · intro t heq; subst heq; simp [pop_bool, pop, WofValue.make_string]
  · intro t heq; subst heq; simp [pop_bool, pop, WofValue.make_symbol]
  · intro ht
    obtain ⟨t, val, u⟩ := v
    simp only at ht
    subst ht
    cases val <;> simp [pop_bool, pop]

/-- Claim C9 witness: the theorem applied to the `String` value
`"false"`, which pops to `false` without error. -/
theorem C9_witness :
    WF (WofValue.make_string "false") = true ∧
    pop_bool [WofValue.make_string "false"] = .ok false [] := by
  refine ⟨by decide, ?_⟩
  have h := (C9_pop_bool_total (WofValue.make_string "false") [] (by decide)).2.2.2.1 "false" rfl
  simpa using h

/-! ## Claim C10: pop_int accepts doubles -/

/-- Claim C10: on every non-empty stack whose top value satisfies the
tag/payload invariant, `pop_int` succeeds on a `Double`-tagged top,
returning the payload rounded to the nearest integer (ties away from
zero, as `std::llround`); it succeeds verbatim on `Integer` and raises
the type error exactly for the `String`, `Symbol` and `Unknown` tags. -/
theorem C10_pop_int_double (v : WofValue) (rest : Stack) (h : WF v = true) :
    (v.type = .Double → ∃ d, v.value = .dbl d ∧ pop_int (v :: rest) = .ok (llroundQ d) rest) ∧
    (v.type = .Integer → ∃ i, v.value = .int i ∧ pop_int (v :: rest) = .ok i rest) ∧
    (v.type = .String ∨ v.type = .Symbol ∨ v.type = .Unknown →
      pop_int (v :: rest) = .err "pop_int: value is not numeric" rest) := by
  obtain ⟨t, val, u⟩ := v
  refine ⟨?_, ?_, ?_⟩
  · intro ht; simp only at ht; subst ht
    cases val <;> simp_all [WF, pop_int, pop]
  · intro ht; simp only at ht; subst ht
    cases val <;> simp_all [WF, pop_int, pop]
  · intro ht
    rcases ht with ht | ht | ht <;> simp only at ht <;> subst ht <;>
      cases val <;> simp_all [WF, pop_int, pop]

/-- Evaluation of the llround model at 7/2. -/
lemma llroundQ_seven_halves : llroundQ (7 / 2) = 4 := by
  rw [llroundQ, if_pos (by norm_num)]
  rw [show (7 : ℚ) / 2 + 1 / 2 = 4 by norm_num]
  simp

/-- Claim C10 witness: the theorem applied to the `Double` value 3.5,
which pops as the integer 4. -/
theorem C10_witness :
    WF (WofValue.make_double (7 / 2)) = true ∧
    pop_int [WofValue.make_double (7 / 2)] = .ok 4 [] := by
  refine ⟨rfl, ?_⟩
  have h := (C10_pop_int_double (WofValue.make_double (7 / 2)) [] rfl).1 rfl
  obtain ⟨d, hd, hres⟩ := h
  have hdd : d = 7 / 2 := by
    have h37 : Storage.dbl (7 / 2) = Storage.dbl d := hd
    injection h37 with h37v
    exact h37v.symm
  rw [hdd] at hres
  rw [hres, llroundQ_seven_halves]

end Woflang
